import Mathlib

/-!
Verification of the review-bot diff-to-structured-result pipeline.

The Python sources embedded here:
  * `src/providers/base.py`   — `BaseAIProvider.parse_review_response` and its
    helpers (`_split_into_sections`, `_extract_list_items`, `_parse_issues`,
    `_parse_suggestions`, `_clean_issue_text`);
  * `src/core/git_manager.py` — `GitManager._process_diffs`,
    `_process_single_diff`, `_get_working_diff`;
  * `src/core/review_manager.py` — `ReviewManager._filter_files`,
    `_serialize_result`, and the post-filter emptiness check in `run_review`.

Python strings are modelled as Lean `String`s (sequences of Unicode code
points, matching CPython's `str`).  `str.lower()` is modelled with the
ASCII-only `Char.toLower`; every keyword the code compares against is ASCII,
so the two agree on all inputs relevant to the statements below.
`str.strip()` is modelled as removing the ASCII whitespace characters, the
only ones occurring in the statements.

A note on the severity glyphs: the bytes of `src/providers/base.py` encode
the *mojibake* strings "ðŸ”´", "ðŸŸ¡", "ðŸŸ¢" (each a sequence of four
Latin-1/Windows-1252 characters, the double-encoded forms of 🔴, 🟡, 🟢),
not the emoji themselves.  The embedding keeps those literal characters
exactly as the interpreter sees them.
-/

namespace ReviewBot

/-! ## Python string primitives -/

/-- Python `s.split(c)` for a single-character separator, on code-point lists:
`pySplit c [] = [[]]`, and every occurrence of `c` starts a new chunk. -/
def pySplit (c : Char) : List Char → List (List Char)
  | [] => [[]]
  | x :: xs =>
    let r := pySplit c xs
    if x = c then [] :: r
    else (x :: r.headD []) :: r.tail

/-- Python `s.split(c)` at the `String` level. -/
def pySplitStr (c : Char) (s : String) : List String :=
  (pySplit c s.data).map List.asString

/-- Python `str.strip()` (both-ends whitespace removal). -/
def pyStrip (s : String) : String :=
  ((((s.data.dropWhile Char.isWhitespace).reverse).dropWhile
      Char.isWhitespace).reverse).asString

/-- Python `str.lower()` (ASCII case folding; every comparison keyword is ASCII). -/
def pyLower (s : String) : String :=
  (s.data.map Char.toLower).asString

/-- Membership of `n` as a contiguous sublist of `h` (Python's `in` on
strings, once both are viewed as code-point lists). -/
def needleIn (n : List Char) : List Char → Bool
  | [] => n.isPrefixOf []
  | c :: t => n.isPrefixOf (c :: t) || needleIn n t

/-- Python's `needle in haystack` substring test. -/
def containsSub (haystack needle : String) : Bool :=
  needleIn needle.data haystack.data

/-- Python's `s.startswith(p)`. -/
def pyStartsWith (s p : String) : Bool :=
  p.data.isPrefixOf s.data

/-- Python `'\n'.join(lines)`. -/
def joinLines (lines : List String) : String :=
  String.intercalate "\n" lines

@[simp]
theorem data_asString (l : List Char) : l.asString.data = l := rfl

@[simp]
theorem asString_eq_iff {l : List Char} {s : String} :
    l.asString = s ↔ l = s.data := by
  constructor
  · intro h
    subst h
    rfl
  · intro h
    subst h
    cases s
    rfl

/-! ## Data model (src/models/types.py) -/

/-- The `Severity` enum: `critical`, `major`, `minor`. -/
inductive Severity where
  | critical
  | major
  | minor
deriving DecidableEq, Repr

/-- The lowercase string value of a `Severity` member. -/
def Severity.val : Severity → String
  | .critical => "critical"
  | .major => "major"
  | .minor => "minor"

/-- The `Priority` enum: `high`, `medium`, `low`. -/
inductive Priority where
  | high
  | medium
  | low
deriving DecidableEq, Repr

/-- The lowercase string value of a `Priority` member. -/
def Priority.val : Priority → String
  | .high => "high"
  | .medium => "medium"
  | .low => "low"

/-- The `FileStatus` enum: `added`, `modified`, `deleted`, `renamed`. -/
inductive FileStatus where
  | added
  | modified
  | deleted
  | renamed
deriving DecidableEq, Repr

/-- The lowercase string value of a `FileStatus` member. -/
def FileStatus.val : FileStatus → String
  | .added => "added"
  | .modified => "modified"
  | .deleted => "deleted"
  | .renamed => "renamed"

/-- The `TokenUsage` model. -/
structure TokenUsage where
  input_tokens : Int := 0
  output_tokens : Int := 0
  total_tokens : Int := 0
deriving DecidableEq, Repr

/-- The `Issue` model. -/
structure Issue where
  severity : Severity
  type : String
  file : Option String := none
  line : Option Int := none
  description : String
  suggestion : Option String := none
  code_example : Option String := none
deriving DecidableEq, Repr

/-- The `Suggestion` model. -/
structure Suggestion where
  id : String
  title : String
  description : String
  files : List String := []
  priority : Priority := .medium
  completed : Bool := false
  example_ : Option String := none
deriving DecidableEq, Repr

/-- The `ReviewResult` model.  The `timestamp` field (a `datetime` in the source)
is modelled by its ISO-8601 rendering, the only view of it the serializer
uses. -/
structure ReviewResult where
  provider : String
  model : String
  timestamp : String := ""
  summary : String := ""
  strengths : List String := []
  issues : List Issue := []
  suggestions : List Suggestion := []
  raw_response : Option String := none
  tokens : Option TokenUsage := none
  estimated_cost : Option ℚ := none
deriving DecidableEq, Repr

/-- The `FileChange` model. -/
structure FileChange where
  path : String
  status : FileStatus
  additions : Nat := 0
  deletions : Nat := 0
  patch : Option String := none
deriving DecidableEq, Repr

/-- The `GitStats` model. -/
structure GitStats where
  files_changed : Nat
  insertions : Nat
  deletions : Nat
deriving DecidableEq, Repr

/-- The `GitDiff` model. -/
structure GitDiff where
  files : List FileChange := []
  stats : GitStats
  commit_message : Option String := none
  branch : Option String := none
deriving DecidableEq, Repr

/-! ## DiffNormalizer (src/core/git_manager.py) -/

/-- The patch payload GitPython exposes on a raw diff record (`diff.diff`),
together with the outcome of decoding it:
  * `absent` — the attribute is `None` or an empty byte string (both falsy,
    so the source never attempts to decode them);
  * `undecodable` — bytes whose UTF-8 decode raises (the source swallows the
    exception and leaves `patch = None`);
  * `text s` — bytes decoding to the (necessarily non-empty) text `s`. -/
inductive PatchData where
  | absent
  | undecodable
  | text (s : String)
deriving DecidableEq, Repr

/-- A raw change record as exposed by GitPython's `Diff` objects: the fields
`_process_single_diff` reads. -/
structure RawDiff where
  a_path : Option String := none
  b_path : Option String := none
  new_file : Bool := false
  deleted_file : Bool := false
  renamed_file : Bool := false
  patchData : PatchData := .absent
deriving DecidableEq, Repr

/-- Python's `diff.b_path or diff.a_path` followed by `if not file_path`:
the first of the two that is a non-empty string, if any. -/
def pickPath (b a : Option String) : Option String :=
  match b with
  | some s => if s ≠ "" then some s else
      match a with
      | some t => if t ≠ "" then some t else none
      | none => none
  | none =>
      match a with
      | some t => if t ≠ "" then some t else none
      | none => none

/-- The `+`/`-` counting loop of `_process_single_diff`: a line starting with
`+` but not `+++` increments additions, a line starting with `-` but not
`---` increments deletions. -/
def countPatchLine (acc : Nat × Nat) (line : String) : Nat × Nat :=
  if pyStartsWith line "+" && !pyStartsWith line "+++" then (acc.1 + 1, acc.2)
  else if pyStartsWith line "-" && !pyStartsWith line "---" then (acc.1, acc.2 + 1)
  else acc

/-- Embedding of `GitManager._process_single_diff`.  Returns `none` where the source
returns `None` (no usable path; the surrounding `try/except` has no other
reachable failure on the data this record carries). -/
def process_single_diff (d : RawDiff) : Option FileChange :=
  match pickPath d.b_path d.a_path with
  | none => none
  | some file_path =>
    let status : FileStatus :=
      if d.new_file then .added
      else if d.deleted_file then .deleted
      else if d.renamed_file then .renamed
      else .modified
    let patch : Option String :=
      match d.patchData with
      | .text s => some s
      | _ => none
    let counts : Nat × Nat :=
      match patch with
      | some s => if s ≠ "" then (pySplitStr '\n' s).foldl countPatchLine (0, 0) else (0, 0)
      | none => (0, 0)
    some { path := file_path, status := status, additions := counts.1,
           deletions := counts.2, patch := patch }

/-- The accumulation loop of `GitManager._process_diffs`: collect the
successfully processed records and the running insertion/deletion totals. -/
def process_diffs_go : List RawDiff → List FileChange → Nat → Nat →
    List FileChange × Nat × Nat
  | [], files, ins, del => (files, ins, del)
  | d :: ds, files, ins, del =>
    match process_single_diff d with
    | some fc => process_diffs_go ds (files ++ [fc]) (ins + fc.additions) (del + fc.deletions)
    | none => process_diffs_go ds files ins del

/-- Embedding of `GitManager._process_diffs`. -/
def process_diffs (diffs : List RawDiff) (commit_message : Option String)
    (branch : String) : GitDiff :=
  let acc := process_diffs_go diffs [] 0 0
  { files := acc.1,
    stats := { files_changed := acc.1.length, insertions := acc.2.1,
               deletions := acc.2.2 },
    commit_message := commit_message,
    branch := some branch }

/-- Embedding of `GitManager._get_working_diff`: concatenate the staged-vs-HEAD records
with the unstaged-vs-index records (`list(staged_diffs) + list(unstaged_diffs)`)
and process the combined list. -/
def get_working_diff (staged_diffs unstaged_diffs : List RawDiff)
    (branch : String) : GitDiff :=
  process_diffs (staged_diffs ++ unstaged_diffs) none branch

/-! ## FileFilter (src/core/review_manager.py, `_filter_files`)

`fnmatch.fnmatch` on POSIX (where `os.path.normcase` is the identity):
`*` matches any run of characters, `?` any single character, `[seq]` a
character class with `-` ranges and leading-`!` negation, a `]` directly
after the (optionally negated) opening bracket is a literal member, and an
unterminated `[` matches itself literally.  Every other character matches
itself; the whole pattern must consume the whole name. -/

/-- Scan a character-class body up to the closing `]`; `none` when the class
is unterminated. -/
def scanToClose : List Char → Option (List Char × List Char)
  | [] => none
  | c :: t =>
    if c = ']' then some ([], t)
    else
      match scanToClose t with
      | none => none
      | some (b, r) => some (c :: b, r)

/-- Interpret a class body as a list of (lo, hi) ranges; a non-range member
`c` becomes `(c, c)`. -/
def parseClassItems : List Char → List (Char × Char)
  | [] => []
  | a :: '-' :: b :: rest => (a, b) :: parseClassItems rest
  | a :: rest => (a, a) :: parseClassItems rest

/-- Parse a character class occurring after `[`: returns the negation flag,
the ranges, and the pattern remainder after the closing `]`. -/
def parseCls (l : List Char) : Option (Bool × List (Char × Char) × List Char) :=
  match l with
  | '!' :: l1 =>
    match l1 with
    | ']' :: t => (scanToClose t).map (fun p => (true, parseClassItems (']' :: p.1), p.2))
    | _ => (scanToClose l1).map (fun p => (true, parseClassItems p.1, p.2))
  | _ =>
    match l with
    | ']' :: t => (scanToClose t).map (fun p => (false, parseClassItems (']' :: p.1), p.2))
    | _ => (scanToClose l).map (fun p => (false, parseClassItems p.1, p.2))

theorem scanToClose_length {l b r : List Char} (h : scanToClose l = some (b, r)) :
    r.length < l.length := by
  induction l generalizing b r with
  | nil => simp [scanToClose] at h
  | cons c t ih =>
    by_cases hc : c = ']'
    · simp [scanToClose, hc] at h
      simp [h.2.symm]
    · simp only [scanToClose, if_neg hc] at h
      cases hsc : scanToClose t with
      | none => rw [hsc] at h; simp at h
      | some p =>
        rw [hsc] at h
        obtain ⟨b', r'⟩ := p
        simp at h
        have := ih hsc
        obtain ⟨-, h2⟩ := h
        subst h2
        simp
        omega

theorem parseCls_length {l : List Char} {x : Bool × List (Char × Char) × List Char}
    (h : parseCls l = some x) : x.2.2.length < l.length := by
  unfold parseCls at h
  split at h
  next l1 =>
    split at h
    next t =>
      cases hsc : scanToClose t with
      | none => rw [hsc] at h; simp at h
      | some p =>
        rw [hsc] at h; simp at h
        have := scanToClose_length (l := t) (b := p.1) (r := p.2) (by rw [hsc])
        subst h; simp; omega
    next hne =>
      cases hsc : scanToClose l1 with
      | none => rw [hsc] at h; simp at h
      | some p =>
        rw [hsc] at h; simp at h
        have := scanToClose_length (l := l1) (b := p.1) (r := p.2) (by rw [hsc])
        subst h; simp; omega
  next hn =>
    split at h
    next t =>
      cases hsc : scanToClose t with
      | none => rw [hsc] at h; simp at h
      | some p =>
        rw [hsc] at h; simp at h
        have := scanToClose_length (l := t) (b := p.1) (r := p.2) (by rw [hsc])
        subst h; simp; omega
    next =>
      cases hsc : scanToClose l with
      | none => rw [hsc] at h; simp at h
      | some p =>
        rw [hsc] at h; simp at h
        have := scanToClose_length (l := l) (b := p.1) (r := p.2) (by rw [hsc])
        subst h; simp; omega

/-- Does character `c` fall in the (possibly negated) set of ranges? -/
def matchCls (neg : Bool) (items : List (Char × Char)) (c : Char) : Bool :=
  let m := items.any (fun p => p.1 ≤ c && c ≤ p.2)
  if neg then !m else m

/-- The glob matcher underlying `fnmatch.fnmatch pattern → name`. -/
def globMatch : List Char → List Char → Bool
  | [], s => s.isEmpty
  | '*' :: p, s =>
    globMatch p s ||
      (match s with
       | [] => false
       | _ :: t => globMatch ('*' :: p) t)
  | '?' :: p, s =>
    (match s with
     | [] => false
     | _ :: t => globMatch p t)
  | '[' :: p, s =>
    if hpc : (parseCls p).isSome then
      let x := (parseCls p).get hpc
      (match s with
       | [] => false
       | c :: t => matchCls x.1 x.2.1 c && globMatch x.2.2 t)
    else
      (match s with
       | [] => false
       | c :: t => (c = '[') && globMatch p t)
  | c :: p, s =>
    (match s with
     | [] => false
     | d :: t => (c = d) && globMatch p t)
termination_by p s => p.length + s.length
decreasing_by
  all_goals simp_wf
  all_goals try omega
  all_goals have := parseCls_length ((Option.some_get hpc).symm)
  all_goals omega

/-- Python `fnmatch.fnmatch(name, pattern)` (POSIX, where `normcase` is the
identity). -/
def pyFnmatch (name pattern : String) : Bool :=
  globMatch pattern.data name.data

/-- The slice of `ReviewConfig` that `_filter_files` reads. -/
structure FilterConfig where
  include_patterns : List String
  exclude_patterns : List String
  max_files_per_review : Nat
deriving DecidableEq, Repr

/-- The `for file in git_diff.files` loop of `_filter_files`: skip a file
matching any exclude pattern, keep it when it matches an include pattern. -/
def filter_files_loop (cfg : FilterConfig) (files : List FileChange) :
    List FileChange :=
  files.foldl
    (fun acc file =>
      let excluded := cfg.exclude_patterns.any (fun pat => pyFnmatch file.path pat)
      if excluded then acc
      else
        let included := cfg.include_patterns.any (fun pat => pyFnmatch file.path pat)
        if included then acc ++ [file] else acc)
    []

/-- Embedding of `ReviewManager._filter_files`.  The second component records whether the
"Limited to N files" warning was printed.  Note the returned diff reuses the
*input* diff's `stats` field unchanged. -/
def filter_files (git_diff : GitDiff) (cfg : FilterConfig) : GitDiff × Bool :=
  let filtered := filter_files_loop cfg git_diff.files
  let warn := decide (filtered.length > cfg.max_files_per_review)
  let final :=
    if filtered.length > cfg.max_files_per_review then
      filtered.take cfg.max_files_per_review
    else filtered
  ({ files := final, stats := git_diff.stats,
     commit_message := git_diff.commit_message, branch := git_diff.branch },
   warn)

/-- The post-filter emptiness check in `ReviewManager.run_review`
(`if not filtered_diff.files: raise ValueError(...)`). -/
def run_review_filter_step (git_diff : GitDiff) (cfg : FilterConfig) :
    Except String GitDiff :=
  let fd := (filter_files git_diff cfg).1
  if fd.files.isEmpty then .error "No files to review after filtering"
  else .ok fd

/-! ## ResponseInterpreter (src/providers/base.py)

The severity indicator literals below are the exact characters of the source
file: double-encoded (mojibake) renderings of 🔴, 🟡, 🟢 — four Latin-1 /
Windows-1252 characters each, written here with explicit escapes. -/

/-- The red/critical indicator literal of `_parse_issues` (mojibake 🔴). -/
def redGlyph : String := "ðŸ”´"

/-- The yellow/major indicator literal of `_parse_issues` (mojibake 🟡). -/
def yellowGlyph : String := "ðŸŸ¡"

/-- The green/minor indicator literal of `_parse_issues` (mojibake 🟢). -/
def greenGlyph : String := "ðŸŸ¢"

/-- The character set of the class `[ðŸ”´ðŸŸ¡ðŸŸ¢]` in `_clean_issue_text`
(the distinct characters of the three mojibake glyph strings). -/
def glyphChars : List Char :=
  ['ð', 'Ÿ', '”', '´', '¡', '¢']

/-- The bullet characters of the list-item class `[-*â€¢]` in
`_extract_list_items` (the bullet `•` appears double-encoded as `â€¢`). -/
def bulletChars : List Char := ['-', '*', 'â', '€', '¢']

/-- The header test `re.match(r'^#{1,3}\s+(.+)$', line.strip())`: 1–3 leading `#`, at least
one whitespace character, then the (necessarily non-empty, since the line
was stripped) heading text. -/
def headerMatch (rawLine : String) : Option String :=
  let s := (pyStrip rawLine).data
  let hashes := s.takeWhile (· = '#')
  let rest := s.dropWhile (· = '#')
  if hashes.length = 0 ∨ hashes.length > 3 then none
  else
    match rest with
    | [] => none
    | c :: _ =>
      if c.isWhitespace then
        let body := rest.dropWhile Char.isWhitespace
        if body.isEmpty then none else some body.asString
      else none

/-- Python-`dict` assignment on an insertion-ordered association list:
an existing key keeps its position and gets the new value, a fresh key is
appended. -/
def updateAList (m : List (String × String)) (k v : String) :
    List (String × String) :=
  if m.any (fun p => p.1 = k) then
    m.map (fun p => if p.1 = k then (k, v) else p)
  else m ++ [(k, v)]

/-- The line loop of `_split_into_sections`: `cur` is the current section
title, `buf` the accumulated lines, `acc` the (insertion-ordered) dict.
A buffer is flushed only when non-empty (`if current_content:`). -/
def split_sections_go : List String → String → List String →
    List (String × String) → List (String × String)
  | [], cur, buf, acc =>
    if buf.isEmpty then acc else updateAList acc cur (joinLines buf)
  | l :: ls, cur, buf, acc =>
    match headerMatch l with
    | some t =>
      split_sections_go ls t []
        (if buf.isEmpty then acc else updateAList acc cur (joinLines buf))
    | none => split_sections_go ls cur (buf ++ [l]) acc

/-- Embedding of `BaseAIProvider._split_into_sections`. -/
def split_into_sections (response : String) : List (String × String) :=
  split_sections_go (pySplitStr '\n' response) "general" [] []

/-- Does the stripped line open a list item (`re.match(r'^[-*â€¢]\s+', line)`)? -/
def matchesBullet (line : String) : Bool :=
  match line.data with
  | c :: d :: _ => bulletChars.contains c && d.isWhitespace
  | _ => false

/-- Does the stripped line open a numbered item (`re.match(r'^\d+\.\s+', line)`)? -/
def matchesNum (line : String) : Bool :=
  let ds := line.data.takeWhile Char.isDigit
  match line.data.dropWhile Char.isDigit with
  | '.' :: d :: _ => !ds.isEmpty && d.isWhitespace
  | _ => false

/-- The substitution `re.sub(r'^[-*â€¢]\s+', '', line)`: drop a leading bullet character and
the whitespace run after it, when present. -/
def stripBullet (line : String) : String :=
  match line.data with
  | c :: d :: rest =>
    if bulletChars.contains c && d.isWhitespace then
      ((d :: rest).dropWhile Char.isWhitespace).asString
    else line
  | _ => line

/-- The substitution `re.sub(r'^\d+\.\s+', '', item)`: drop a leading `<digits>.<whitespace>`
run, when present. -/
def stripNum (line : String) : String :=
  let ds := line.data.takeWhile Char.isDigit
  match line.data.dropWhile Char.isDigit with
  | '.' :: d :: rest =>
    if !ds.isEmpty && d.isWhitespace then
      ((d :: rest).dropWhile Char.isWhitespace).asString
    else line
  | _ => line

/-- Embedding of `BaseAIProvider._extract_list_items`. -/
def extract_list_items (content : String) : List String :=
  (pySplitStr '\n' content).foldl
    (fun items l =>
      let line := pyStrip l
      if matchesBullet line || matchesNum line then
        let item := stripNum (stripBullet line)
        if item ≠ "" then items ++ [item] else items
      else items)
    []

/-- The severity-indicator test of `_parse_issues`, in the source's order:
red glyph / "critical", then yellow glyph / "major", then green glyph /
"minor"; the first hit wins. -/
def severityOf (line : String) : Option Severity :=
  if containsSub line redGlyph || containsSub (pyLower line) "critical" then
    some .critical
  else if containsSub line yellowGlyph || containsSub (pyLower line) "major" then
    some .major
  else if containsSub line greenGlyph || containsSub (pyLower line) "minor" then
    some .minor
  else none

/-- Case-insensitive match of `(Critical|Major|Minor)` at the head of `l`
(alternation tried in the source's order); returns the remainder. -/
def sevWordAfter (l : List Char) : Option (List Char) :=
  if (l.take 8).map Char.toLower = "critical".data then some (l.drop 8)
  else if (l.take 5).map Char.toLower = "major".data then some (l.drop 5)
  else if (l.take 5).map Char.toLower = "minor".data then some (l.drop 5)
  else none

/-- Up to two leading `*` characters (`\*?\*?`, greedy). -/
def dropStars2 (l : List Char) : List Char :=
  match l with
  | '*' :: '*' :: rest => rest
  | '*' :: rest => rest
  | _ => l

/-- One attempt of the pattern `\*?\*?(Critical|Major|Minor)\*?\*?:?\s*`
(case-insensitive) at the head of `l`; returns the remainder after the
match.  All parts are greedy and independent, so greedy scanning equals the
regex semantics. -/
def dropColon1 : List Char → List Char
  | ':' :: rest => rest
  | l => l

def tryMatchSev (l : List Char) : Option (List Char) :=
  match sevWordAfter (dropStars2 l) with
  | none => none
  | some l2 =>
    some ((dropColon1 (dropStars2 l2)).dropWhile Char.isWhitespace)

theorem sevWordAfter_length {l r : List Char} (h : sevWordAfter l = some r) :
    r.length + 5 ≤ l.length := by
  unfold sevWordAfter at h
  split at h
  · next h8 =>
    have hl := congrArg List.length h8
    have hc : ("critical".data).length = 8 := rfl
    rw [List.length_map, List.length_take, hc] at hl
    simp only [Option.some_inj] at h
    have hr := congrArg List.length h
    have hd := List.length_drop 8 l
    omega
  · split at h
    · next h5 =>
      have hl := congrArg List.length h5
      have hc : ("major".data).length = 5 := rfl
      rw [List.length_map, List.length_take, hc] at hl
      simp only [Option.some_inj] at h
      have hr := congrArg List.length h
      have hd := List.length_drop 5 l
      omega
    · split at h
      · next h5 =>
        have hl := congrArg List.length h5
        have hc : ("minor".data).length = 5 := rfl
        rw [List.length_map, List.length_take, hc] at hl
        simp only [Option.some_inj] at h
        have hr := congrArg List.length h
        have hd := List.length_drop 5 l
        omega
      · simp at h

theorem length_dropWhile_le' (p : Char → Bool) (l : List Char) :
    (l.dropWhile p).length ≤ l.length :=
  (List.dropWhile_suffix p).sublist.length_le

theorem dropStars2_length (l : List Char) : (dropStars2 l).length ≤ l.length := by
  unfold dropStars2
  split
  all_goals simp
  all_goals omega

theorem dropColon1_length (l : List Char) : (dropColon1 l).length ≤ l.length := by
  unfold dropColon1
  split
  all_goals simp

theorem tryMatchSev_length {l r : List Char} (h : tryMatchSev l = some r) :
    r.length < l.length := by
  unfold tryMatchSev at h
  cases hw : sevWordAfter (dropStars2 l) with
  | none => rw [hw] at h; simp at h
  | some l2 =>
    rw [hw] at h
    simp only [Option.some_inj] at h
    have h1 := sevWordAfter_length hw
    have h2 := dropStars2_length l
    have h3 := dropStars2_length l2
    have h4 := dropColon1_length (dropStars2 l2)
    have h5 := length_dropWhile_le' Char.isWhitespace (dropColon1 (dropStars2 l2))
    have h6 := congrArg List.length h
    simp only at h6
    omega

/-- The global substitution (`re.sub`) of the severity-word pattern: scan
left to right, replacing each non-overlapping match with the empty string. -/
def cleanSevScan : List Char → List Char
  | [] => []
  | c :: cs =>
    if ht : (tryMatchSev (c :: cs)).isSome then
      cleanSevScan ((tryMatchSev (c :: cs)).get ht)
    else c :: cleanSevScan cs
termination_by l => l.length
decreasing_by
  · have := tryMatchSev_length ((Option.some_get ht).symm)
    simpa using this
  · simp

/-- Embedding of `BaseAIProvider._clean_issue_text`: drop the glyph-class characters,
erase severity-word patterns, then strip. -/
def clean_issue_text (text : String) : String :=
  let t1 := text.data.filter (fun c => !glyphChars.contains c)
  let t2 := cleanSevScan t1
  pyStrip t2.asString

/-- The line loop of `_parse_issues`: `cur` is the currently open issue. -/
def parse_issues_go : List String → Option Issue → List Issue
  | [], cur =>
    match cur with
    | some i => [i]
    | none => []
  | l :: ls, cur =>
    let line := pyStrip l
    match severityOf line with
    | some sev =>
      let closed : List Issue :=
        match cur with
        | some i => [i]
        | none => []
      closed ++ parse_issues_go ls
        (some { severity := sev, type := "general",
                description := clean_issue_text line })
    | none =>
      match cur with
      | some i =>
        if line ≠ "" then
          parse_issues_go ls
            (some { i with description := i.description ++ " " ++ line })
        else parse_issues_go ls cur
      | none => parse_issues_go ls cur

/-- Embedding of `BaseAIProvider._parse_issues`. -/
def parse_issues (content : String) : List Issue :=
  parse_issues_go (pySplitStr '\n' content) none

/-- The priority keyword heuristic of `_parse_suggestions`. -/
def priorityOf (item : String) : Priority :=
  if ["urgent", "critical", "important"].any
      (fun w => containsSub (pyLower item) w) then .high
  else if ["minor", "optional", "consider"].any
      (fun w => containsSub (pyLower item) w) then .low
  else .medium

/-- The title heuristic of `_parse_suggestions`:
`item.split('.')[0] if '.' in item else item[:50]`. -/
def titleOf (item : String) : String :=
  if item.data.contains '.' then
    ((pySplit '.' item.data).headD []).asString
  else item.data.take 50 |>.asString

/-- Embedding of `BaseAIProvider._parse_suggestions`. -/
def parse_suggestions (content : String) : List Suggestion :=
  (extract_list_items content).enum.map
    (fun p =>
      { id := "suggestion-" ++ toString (p.1 + 1),
        title := titleOf p.2,
        description := p.2,
        priority := priorityOf p.2 })

/-- The parsing state mutated by the `for section_title, content` loop of
`parse_review_response`: summary, strengths, issues, suggestions. -/
structure ParseState where
  summary : String := ""
  strengths : List String := []
  issues : List Issue := []
  suggestions : List Suggestion := []
deriving DecidableEq, Repr

/-- One iteration of the section-dispatch loop of `parse_review_response`. -/
def applySection (st : ParseState) (sec : String × String) : ParseState :=
  let tl := pyLower sec.1
  if containsSub tl "summary" then { st with summary := pyStrip sec.2 }
  else if containsSub tl "strength" then
    { st with strengths := extract_list_items sec.2 }
  else if containsSub tl "issue" || containsSub tl "problem" then
    { st with issues := parse_issues sec.2 }
  else if containsSub tl "suggestion" || containsSub tl "improvement" then
    { st with suggestions := parse_suggestions sec.2 }
  else st

/-- The outcome of the `try` block of `parse_review_response`.  `completed`
is the ordinary exception-free execution; `failed e strengthsSoFar` models a
Python exception with message `e` thrown somewhere inside the block, with
`strengthsSoFar` whatever the strengths field held at that moment (the
`except` handler overwrites the summary, issues and suggestions fields but
not strengths). -/
inductive TryOutcome where
  | completed
  | failed (e : String) (strengthsSoFar : List String)
deriving DecidableEq, Repr

/-- Embedding of `BaseAIProvider.parse_review_response`.  In both outcomes the function
returns a `ReviewResult`; it has no failing path of its own. -/
def parse_review_response (response provider model : String)
    (outcome : TryOutcome) : ReviewResult :=
  match outcome with
  | .completed =>
    let st := (split_into_sections response).foldl applySection {}
    { provider := provider, model := model, raw_response := some response,
      summary := st.summary, strengths := st.strengths,
      issues := st.issues, suggestions := st.suggestions }
  | .failed e strengthsSoFar =>
    { provider := provider, model := model, raw_response := some response,
      summary := "Parsing error: " ++ e, strengths := strengthsSoFar,
      issues := [], suggestions := [] }

/-! ## JSON serialization (src/core/review_manager.py, `_serialize_result`)

`Json` models the parse tree of a JSON document as Python's `json` module
sees it (`json.loads` keeps `int` and `float` apart, so the model does too;
floats are modelled as rationals, `repr`-round-tripping being exact). -/

/-- A JSON value. -/
inductive Json where
  | null
  | bool (b : Bool)
  | int (n : Int)
  | num (q : ℚ)
  | str (s : String)
  | arr (xs : List Json)
  | obj (kvs : List (String × Json))

/-- The issue-entry dictionary built by `_serialize_result`. -/
def serializeIssue (i : Issue) : Json :=
  .obj [("severity", .str i.severity.val),
        ("type", .str i.type),
        ("file", match i.file with | some f => .str f | none => .null),
        ("line", match i.line with | some n => .int n | none => .null),
        ("description", .str i.description),
        ("suggestion", match i.suggestion with | some s => .str s | none => .null),
        ("code_example", match i.code_example with | some s => .str s | none => .null)]

/-- The suggestion-entry dictionary built by `_serialize_result`. -/
def serializeSuggestion (s : Suggestion) : Json :=
  .obj [("id", .str s.id),
        ("title", .str s.title),
        ("description", .str s.description),
        ("files", .arr (s.files.map .str)),
        ("priority", .str s.priority.val),
        ("completed", .bool s.completed),
        ("example", match s.example_ with | some e => .str e | none => .null)]

/-- Embedding of `ReviewManager._serialize_result`.  Note that `raw_response` is not
among the emitted keys. -/
def serialize_result (r : ReviewResult) : Json :=
  .obj [("provider", .str r.provider),
        ("model", .str r.model),
        ("timestamp", .str r.timestamp),
        ("summary", .str r.summary),
        ("strengths", .arr (r.strengths.map .str)),
        ("issues", .arr (r.issues.map serializeIssue)),
        ("suggestions", .arr (r.suggestions.map serializeSuggestion)),
        ("tokens", match r.tokens with
          | some t => .obj [("input", .int t.input_tokens),
                            ("output", .int t.output_tokens),
                            ("total", .int t.total_tokens)]
          | none => .null),
        ("estimated_cost", match r.estimated_cost with
          | some q => .num q
          | none => .null)]

/-- First value bound to key `k` in a JSON object body. -/
def jLookup (kvs : List (String × Json)) (k : String) : Option Json :=
  (kvs.find? (fun p => p.1 = k)).map Prod.snd

/-- Read a JSON string. -/
def jStr : Json → Option String
  | .str s => some s
  | _ => none

/-- Read a nullable JSON string. -/
def jOptStr : Json → Option (Option String)
  | .null => some none
  | .str s => some (some s)
  | _ => none

/-- Read a JSON integer. -/
def jInt : Json → Option Int
  | .int n => some n
  | _ => none

/-- Read a nullable JSON integer. -/
def jOptInt : Json → Option (Option Int)
  | .null => some none
  | .int n => some (some n)
  | _ => none

/-- Read a JSON boolean. -/
def jBool : Json → Option Bool
  | .bool b => some b
  | _ => none

/-- Read a severity from its lowercase string value. -/
def jSeverity (j : Json) : Option Severity :=
  match j with
  | .str "critical" => some .critical
  | .str "major" => some .major
  | .str "minor" => some .minor
  | _ => none

/-- Read a priority from its lowercase string value. -/
def jPriority (j : Json) : Option Priority :=
  match j with
  | .str "high" => some .high
  | .str "medium" => some .medium
  | .str "low" => some .low
  | _ => none

/-- Traverse a list with a fallible reader, failing when any element
fails. -/
def optMapM {α β : Type} (f : α → Option β) : List α → Option (List β)
  | [] => some []
  | a :: t =>
    match f a, optMapM f t with
    | some b, some bt => some (b :: bt)
    | _, _ => none

/-- Read a JSON array of strings. -/
def jStrArr : Json → Option (List String)
  | .arr xs => optMapM jStr xs
  | _ => none

/-- Read a nullable JSON number (the estimated-cost field). -/
def jOptNum : Json → Option (Option ℚ)
  | .null => some none
  | .num q => some (some q)
  | _ => none

/-- Modelled from the spec: the repository serializes a `ReviewResult` to
JSON (`_serialize_result`) but contains no code reading that JSON back into
the data model, so the re-parsing direction of the round-trip sentence is
modelled from the spec's section-3 schema: each field read back from the key
of the same name, enum values from their lowercase strings, `null` for the
absent optionals.  This reads one issue entry. -/
def deserializeIssue (j : Json) : Option Issue :=
  match j with
  | .obj kvs =>
    match (jLookup kvs "severity").bind jSeverity,
        (jLookup kvs "type").bind jStr,
        (jLookup kvs "file").bind jOptStr,
        (jLookup kvs "line").bind jOptInt,
        (jLookup kvs "description").bind jStr,
        (jLookup kvs "suggestion").bind jOptStr,
        (jLookup kvs "code_example").bind jOptStr with
    | some sev, some ty, some file, some line, some desc, some sug, some ce =>
      some { severity := sev, type := ty, file := file, line := line,
             description := desc, suggestion := sug, code_example := ce }
    | _, _, _, _, _, _, _ => none
  | _ => none

/-- Read a JSON array of issue entries. -/
def jIssueArr : Json → Option (List Issue)
  | .arr xs => optMapM deserializeIssue xs
  | _ => none

/-- Modelled from the spec: reads one suggestion entry back (see
`deserializeIssue`). -/
def deserializeSuggestion (j : Json) : Option Suggestion :=
  match j with
  | .obj kvs =>
    match (jLookup kvs "id").bind jStr,
        (jLookup kvs "title").bind jStr,
        (jLookup kvs "description").bind jStr,
        (jLookup kvs "files").bind jStrArr,
        (jLookup kvs "priority").bind jPriority,
        (jLookup kvs "completed").bind jBool,
        (jLookup kvs "example").bind jOptStr with
    | some id, some title, some desc, some files, some pr, some comp, some ex =>
      some { id := id, title := title, description := desc, files := files,
             priority := pr, completed := comp, example_ := ex }
    | _, _, _, _, _, _, _ => none
  | _ => none

/-- Read a JSON array of suggestion entries. -/
def jSuggestionArr : Json → Option (List Suggestion)
  | .arr xs => optMapM deserializeSuggestion xs
  | _ => none

/-- Modelled from the spec: reads the token-usage triple back. -/
def deserializeTokens (j : Json) : Option (Option TokenUsage) :=
  match j with
  | .null => some none
  | .obj kvs =>
    match (jLookup kvs "input").bind jInt,
        (jLookup kvs "output").bind jInt,
        (jLookup kvs "total").bind jInt with
    | some inp, some out, some tot =>
      some (some { input_tokens := inp, output_tokens := out,
                   total_tokens := tot })
    | _, _, _ => none
  | _ => none

/-- Modelled from the spec: the `raw_response` field is optional, so a
missing key reads as `None`. -/
def jRawField (kvs : List (String × Json)) : Option (Option String) :=
  match jLookup kvs "raw_response" with
  | none => some none
  | some jr => jOptStr jr

/-- Modelled from the spec: re-parse a serialized `ReviewResult` from its
JSON rendering (section-3 schema; `raw_response`, absent from the JSON, is
read as its `None` default when the key is missing). -/
def deserialize_result (j : Json) : Option ReviewResult :=
  match j with
  | .obj kvs =>
    match (jLookup kvs "provider").bind jStr,
        (jLookup kvs "model").bind jStr,
        (jLookup kvs "timestamp").bind jStr,
        (jLookup kvs "summary").bind jStr,
        (jLookup kvs "strengths").bind jStrArr,
        (jLookup kvs "issues").bind jIssueArr,
        (jLookup kvs "suggestions").bind jSuggestionArr,
        (jLookup kvs "tokens").bind deserializeTokens,
        (jLookup kvs "estimated_cost").bind jOptNum,
        jRawField kvs with
    | some provider, some model, some ts, some summary, some strengths,
        some issues, some suggestions, some tokens, some cost, some raw =>
      some { provider := provider, model := model, timestamp := ts,
             summary := summary, strengths := strengths, issues := issues,
             suggestions := suggestions, raw_response := raw,
             tokens := tokens, estimated_cost := cost }
    | _, _, _, _, _, _, _, _, _, _ => none
  | _ => none

/-! ## Specification-side reformulations

These definitions follow the wording of the specification sentences (claims
C3, C5, C6); the theorems below compare them with the embeddings above. -/

/-- Spec wording: the line "contains a critical indicator (the word
  critical case-insensitively or the red glyph)". -/
def specContainsCritical (line : String) : Bool :=
  containsSub (pyLower line) "critical" || containsSub line redGlyph

/-- Spec wording: major indicator ("major" or the yellow glyph). -/
def specContainsMajor (line : String) : Bool :=
  containsSub (pyLower line) "major" || containsSub line yellowGlyph

/-- Spec wording: minor indicator ("minor" or the green glyph). -/
def specContainsMinor (line : String) : Bool :=
  containsSub (pyLower line) "minor" || containsSub line greenGlyph

/-- Spec wording: a line is a severity marker iff it carries one of the
three indicators. -/
def spec_is_marker (line : String) : Bool :=
  specContainsCritical line || specContainsMajor line || specContainsMinor line

/-- Spec wording: the first matching indicator, in the fixed order Critical,
Major, Minor, determines the severity. -/
def spec_severity (line : String) : Severity :=
  if specContainsCritical line then .critical
  else if specContainsMajor line then .major
  else .minor

/-- Spec wording: issues are delimited purely by marker lines — group the
(already stripped) lines of the section into blocks, each a marker line plus
the run of non-marker lines after it; lines before the first marker belong
to no block. -/
def spec_blocks : List String → List (String × List String)
  | [] => []
  | l :: ls =>
    if spec_is_marker l then
      (l, ls.takeWhile (fun x => !spec_is_marker x)) ::
        spec_blocks (ls.dropWhile (fun x => !spec_is_marker x))
    else spec_blocks ls
termination_by ls => ls.length
decreasing_by
  · have := (List.dropWhile_suffix
      (l := ls) (fun x => !spec_is_marker x)).sublist.length_le
    simp
    omega
  · simp

/-- Spec wording: the block's issue — the marker's severity, type
"general", and the description built from the cleaned marker line with each
non-empty following line space-joined on. -/
def spec_issue_of (m : String) (body : List String) : Issue :=
  { severity := spec_severity m, type := "general",
    description := body.foldl
      (fun d l => if l ≠ "" then d ++ " " ++ l else d)
      (clean_issue_text m) }

/-- Spec wording: the issues of a section, one per marker-delimited block. -/
def spec_parse_issues (content : String) : List Issue :=
  (spec_blocks ((pySplitStr '\n' content).map pyStrip)).map
    (fun p => spec_issue_of p.1 p.2)

/-- Spec wording (C5): the title is the text before the first literal `.`
when the item contains one, else the first 50 characters. -/
def spec_title (item : String) : String :=
  if item.data.contains '.' then (item.data.takeWhile (· ≠ '.')).asString
  else (item.data.take 50).asString

/-- Spec wording (C5): High on any of urgent/critical/important, else Low on
any of minor/optional/consider, else Medium. -/
def spec_priority (item : String) : Priority :=
  if ["urgent", "critical", "important"].any
      (fun w => containsSub (pyLower item) w) then .high
  else if ["minor", "optional", "consider"].any
      (fun w => containsSub (pyLower item) w) then .low
  else .medium

/-- Spec wording (C5): the suggestion built from the `n`-th (1-indexed)
extracted item. -/
def spec_suggestion (n : Nat) (item : String) : Suggestion :=
  { id := "suggestion-" ++ toString n, title := spec_title item,
    description := item, priority := spec_priority item }

/-- Spec wording (C6): a file is kept iff it matches no exclude pattern and
at least one include pattern. -/
def spec_kept (cfg : FilterConfig) (files : List FileChange) : List FileChange :=
  files.filter (fun f =>
    !(cfg.exclude_patterns.any (fun pat => pyFnmatch f.path pat)) &&
      cfg.include_patterns.any (fun pat => pyFnmatch f.path pat))

/-! ## Helper lemmas -/

theorem process_diffs_go_spec (ds : List RawDiff) :
    ∀ (files : List FileChange) (ins del : Nat),
      process_diffs_go ds files ins del =
        (files ++ ds.filterMap process_single_diff,
         ins + ((ds.filterMap process_single_diff).map FileChange.additions).sum,
         del + ((ds.filterMap process_single_diff).map FileChange.deletions).sum) := by
  induction ds with
  | nil => intro files ins del; simp [process_diffs_go]
  | cons d ds ih =>
    intro files ins del
    unfold process_diffs_go
    cases hd : process_single_diff d with
    | some fc =>
      simp only [List.filterMap_cons, hd]
      rw [ih]
      simp [Prod.mk.injEq, List.append_assoc] <;> omega
    | none =>
      simp only [List.filterMap_cons, hd]
      exact ih files ins del

theorem process_diffs_files (diffs : List RawDiff) (msg : Option String)
    (branch : String) :
    (process_diffs diffs msg branch).files = diffs.filterMap process_single_diff := by
  unfold process_diffs
  rw [process_diffs_go_spec]
  simp

theorem process_diffs_stats (diffs : List RawDiff) (msg : Option String)
    (branch : String) :
    (process_diffs diffs msg branch).stats =
      { files_changed := (diffs.filterMap process_single_diff).length,
        insertions :=
          ((diffs.filterMap process_single_diff).map FileChange.additions).sum,
        deletions :=
          ((diffs.filterMap process_single_diff).map FileChange.deletions).sum } := by
  unfold process_diffs
  rw [process_diffs_go_spec]
  simp

theorem filter_files_loop_eq (cfg : FilterConfig) (files : List FileChange) :
    filter_files_loop cfg files = spec_kept cfg files := by
  unfold filter_files_loop spec_kept
  suffices h : ∀ (acc : List FileChange),
      files.foldl
        (fun acc file =>
          let excluded := cfg.exclude_patterns.any (fun pat => pyFnmatch file.path pat)
          if excluded then acc
          else
            let included := cfg.include_patterns.any (fun pat => pyFnmatch file.path pat)
            if included then acc ++ [file] else acc)
        acc =
      acc ++ files.filter (fun f =>
        !(cfg.exclude_patterns.any (fun pat => pyFnmatch f.path pat)) &&
          cfg.include_patterns.any (fun pat => pyFnmatch f.path pat)) by
    simpa using h []
  induction files with
  | nil => intro acc; simp
  | cons f fs ih =>
    intro acc
    rw [List.foldl_cons, ih, List.filter_cons]
    by_cases hex : cfg.exclude_patterns.any (fun pat => pyFnmatch f.path pat)
    · simp [hex]
    · by_cases hin : cfg.include_patterns.any (fun pat => pyFnmatch f.path pat)
      · simp [hex, hin]
      · simp [hex, hin]

theorem filter_files_spec (gd : GitDiff) (cfg : FilterConfig) :
    (filter_files gd cfg).1.files =
        (spec_kept cfg gd.files).take cfg.max_files_per_review ∧
      (filter_files gd cfg).2 =
        decide ((spec_kept cfg gd.files).length > cfg.max_files_per_review) ∧
      (filter_files gd cfg).1.stats = gd.stats := by
  unfold filter_files
  rw [filter_files_loop_eq]
  refine ⟨?_, rfl, rfl⟩
  by_cases h : (spec_kept cfg gd.files).length > cfg.max_files_per_review
  · simp [h]
  · simp only [if_neg h]
    exact (List.take_of_length_le (by omega)).symm

theorem pySplit_headD (c : Char) (l : List Char) :
    (pySplit c l).headD [] = l.takeWhile (· ≠ c) := by
  induction l with
  | nil => rfl
  | cons x xs ih =>
    by_cases hx : x = c
    · simp only [pySplit, if_pos hx, List.headD_cons]
      rw [List.takeWhile_cons]
      simp [hx]
    · simp only [pySplit, if_neg hx, List.headD_cons]
      rw [ih, List.takeWhile_cons]
      simp [hx]

theorem titleOf_eq_spec (item : String) : titleOf item = spec_title item := by
  unfold titleOf spec_title
  rw [pySplit_headD]

theorem optMapM_map_roundtrip {α β : Type} (f : α → β) (g : β → Option α)
    (h : ∀ a, g (f a) = some a) (l : List α) :
    optMapM g (l.map f) = some l := by
  induction l with
  | nil => rfl
  | cons a t ih => simp [optMapM, h, ih]

theorem deserializeIssue_roundtrip (i : Issue) :
    deserializeIssue (serializeIssue i) = some i := by
  obtain ⟨sev, ty, file, line, desc, sug, ce⟩ := i
  cases sev <;> cases file <;> cases line <;> cases sug <;> cases ce <;> rfl

theorem deserializeSuggestion_roundtrip (s : Suggestion) :
    deserializeSuggestion (serializeSuggestion s) = some s := by
  obtain ⟨id, title, desc, files, pr, comp, ex⟩ := s
  cases pr <;> cases comp <;> cases ex <;>
    simp [serializeSuggestion, deserializeSuggestion, jLookup, jStr, jOptStr,
          jPriority, jBool, Priority.val, jStrArr,
          optMapM_map_roundtrip Json.str jStr (fun a => rfl)]

theorem deserialize_serialize (r : ReviewResult) :
    deserialize_result (serialize_result r) =
      some { r with raw_response := none } := by
  obtain ⟨prov, model, ts, summary, strengths, issues, suggestions, raw, tok, cost⟩ := r
  cases tok <;> cases cost <;>
    simp [serialize_result, deserialize_result, jLookup, jStr, jOptStr, jInt,
          jBool, deserializeTokens, jStrArr, jIssueArr, jSuggestionArr,
          jOptNum, jRawField,
          optMapM_map_roundtrip Json.str jStr (fun a => rfl),
          optMapM_map_roundtrip serializeIssue deserializeIssue
            deserializeIssue_roundtrip,
          optMapM_map_roundtrip serializeSuggestion deserializeSuggestion
            deserializeSuggestion_roundtrip]

theorem severityOf_isSome_eq (line : String) :
    (severityOf line).isSome = spec_is_marker line := by
  unfold severityOf spec_is_marker specContainsCritical specContainsMajor
    specContainsMinor
  by_cases h1 : containsSub line redGlyph <;>
    by_cases h2 : containsSub (pyLower line) "critical" <;>
      by_cases h3 : containsSub line yellowGlyph <;>
        by_cases h4 : containsSub (pyLower line) "major" <;>
          by_cases h5 : containsSub line greenGlyph <;>
            by_cases h6 : containsSub (pyLower line) "minor" <;>
              simp [h1, h2, h3, h4, h5, h6]

theorem severityOf_eq_spec_severity {line : String} {s : Severity}
    (h : severityOf line = some s) : spec_severity line = s := by
  unfold severityOf at h
  unfold spec_severity specContainsCritical specContainsMajor
  by_cases h1 : containsSub line redGlyph <;>
    by_cases h2 : containsSub (pyLower line) "critical" <;>
      by_cases h3 : containsSub line yellowGlyph <;>
        by_cases h4 : containsSub (pyLower line) "major" <;>
          by_cases h5 : containsSub line greenGlyph <;>
            by_cases h6 : containsSub (pyLower line) "minor" <;>
              simp_all

/-- The description-accumulation loop of `_parse_issues` on the open issue. -/
def absorbLines (i : Issue) (ts : List String) : Issue :=
  ts.foldl
    (fun acc l =>
      if l ≠ "" then { acc with description := acc.description ++ " " ++ l }
      else acc)
    i

theorem absorbLines_desc (ts : List String) : ∀ i : Issue,
    absorbLines i ts =
      { i with description :=
          (ts.foldl (fun d l => if l ≠ "" then d ++ " " ++ l else d)
            i.description) } := by
  induction ts with
  | nil => intro i; rfl
  | cons l ts ih =>
    intro i
    show absorbLines _ ts = _
    by_cases hl : l = ""
    · simp only [List.foldl_cons, hl]
      simpa using ih i
    · simp only [List.foldl_cons, if_pos hl]
      simpa [hl] using ih { i with description := i.description ++ " " ++ l }

theorem spec_blocks_dropWhile (ts : List String) :
    spec_blocks (ts.dropWhile (fun x => !spec_is_marker x)) = spec_blocks ts := by
  induction ts with
  | nil => rfl
  | cons t ts ih =>
    by_cases ht : spec_is_marker t
    · rw [List.dropWhile_cons]
      simp [ht]
    · rw [List.dropWhile_cons]
      simp only [ht, Bool.not_false, if_pos]
      rw [ih]
      conv_rhs => rw [spec_blocks]
      simp [ht]

theorem parse_issues_go_eq (ls : List String) :
    parse_issues_go ls none =
        (spec_blocks (ls.map pyStrip)).map (fun p => spec_issue_of p.1 p.2) ∧
      ∀ i : Issue, parse_issues_go ls (some i) =
        absorbLines i ((ls.map pyStrip).takeWhile (fun x => !spec_is_marker x)) ::
          (spec_blocks (ls.map pyStrip)).map (fun p => spec_issue_of p.1 p.2) := by
  induction ls with
  | nil =>
    constructor
    · simp [parse_issues_go, spec_blocks]
    · intro i
      simp [parse_issues_go, spec_blocks, absorbLines]
  | cons l ls ih =>
    obtain ⟨ih0, ih1⟩ := ih
    cases hsev : severityOf (pyStrip l) with
    | some sev =>
      have hm : spec_is_marker (pyStrip l) = true := by
        have h := severityOf_isSome_eq (pyStrip l)
        rw [hsev] at h
        exact h.symm
      have hs : spec_severity (pyStrip l) = sev := severityOf_eq_spec_severity hsev
      have hhead : ∀ body : List String,
          absorbLines
              ({ severity := sev, type := "general",
                 description := clean_issue_text (pyStrip l) } : Issue)
              body =
            spec_issue_of (pyStrip l) body := by
        intro body
        rw [absorbLines_desc]
        unfold spec_issue_of
        rw [hs]
      have hblocks :
          spec_blocks ((l :: ls).map pyStrip) =
            (pyStrip l, (ls.map pyStrip).takeWhile (fun x => !spec_is_marker x)) ::
              spec_blocks (ls.map pyStrip) := by
        rw [List.map_cons]
        rw [spec_blocks]
        rw [if_pos hm]
        rw [spec_blocks_dropWhile]
      constructor
      · show parse_issues_go (l :: ls) none = _
        unfold parse_issues_go
        simp only [hsev, List.nil_append]
        rw [ih1, hblocks, List.map_cons, hhead]
      · intro i
        show parse_issues_go (l :: ls) (some i) = _
        unfold parse_issues_go
        simp only [hsev, List.singleton_append]
        rw [ih1, hblocks, List.map_cons, hhead]
        rw [List.map_cons, List.takeWhile_cons]
        simp [hm, absorbLines]
    | none =>
      have hm : spec_is_marker (pyStrip l) = false := by
        have h := severityOf_isSome_eq (pyStrip l)
        rw [hsev] at h
        exact h.symm
      have hblocks : spec_blocks ((l :: ls).map pyStrip) =
          spec_blocks (ls.map pyStrip) := by
        rw [List.map_cons]
        rw [spec_blocks]
        rw [if_neg (by simp [hm])]
      constructor
      · show parse_issues_go (l :: ls) none = _
        unfold parse_issues_go
        simp only [hsev]
        rw [ih0, hblocks]
      · intro i
        show parse_issues_go (l :: ls) (some i) = _
        unfold parse_issues_go
        simp only [hsev]
        by_cases hl : pyStrip l ≠ ""
        · simp only [if_pos hl]
          rw [ih1, hblocks]
          rw [List.map_cons, List.takeWhile_cons]
          simp [hm, absorbLines, hl]
        · simp only [if_neg hl]
          rw [ih1, hblocks]
          rw [List.map_cons, List.takeWhile_cons]
          simp only [not_not] at hl
          have hm0 : spec_is_marker "" = false := by decide
          simp [hm, absorbLines, hl, hm0]

theorem parse_issues_eq_spec (content : String) :
    parse_issues content = spec_parse_issues content := by
  unfold parse_issues spec_parse_issues
  exact (parse_issues_go_eq (pySplitStr '\n' content)).1

theorem spec_blocks_no_marker {ts : List String}
    (h : ∀ t ∈ ts, spec_is_marker t = false) : spec_blocks ts = [] := by
  induction ts with
  | nil => simp [spec_blocks]
  | cons t ts ih =>
    rw [spec_blocks]
    rw [if_neg (by simp [h t (by simp)])]
    exact ih (fun x hx => h x (by simp [hx]))

/-! ## Claim theorems -/

/-- C1: for every input string and both possible outcomes of the `try`
block, `parse_review_response` returns a `ReviewResult` whose
`raw_response` keeps the input verbatim; when an internal failure occurred,
the summary explains the parse failure ("Parsing error: " plus the
exception text) and the issues and suggestions are empty. -/
theorem c1_interpret_never_throws (response provider model : String)
    (outcome : TryOutcome) :
    (parse_review_response response provider model outcome).raw_response =
        some response ∧
      ∀ e strengthsSoFar, outcome = .failed e strengthsSoFar →
        (parse_review_response response provider model outcome).summary =
            "Parsing error: " ++ e ∧
          (parse_review_response response provider model outcome).issues = [] ∧
          (parse_review_response response provider model outcome).suggestions
            = [] := by
  cases outcome with
  | completed => exact ⟨rfl, fun e s h => by cases h⟩
  | failed e s =>
    refine ⟨rfl, fun e' s' h => ?_⟩
    cases h
    exact ⟨rfl, rfl, rfl⟩

/-- C1 witness: the failure shape at a concrete input. -/
theorem c1_interpret_never_throws_witness :
    (parse_review_response "@@garbage@@" "p" "m"
        (.failed "boom" [])).summary = "Parsing error: boom" ∧
      (parse_review_response "@@garbage@@" "p" "m" (.failed "boom" [])).issues
          = [] ∧
      (parse_review_response "@@garbage@@" "p" "m"
          (.failed "boom" [])).suggestions = [] ∧
      (parse_review_response "@@garbage@@" "p" "m"
          (.failed "boom" [])).raw_response = some "@@garbage@@" := by
  have h := c1_interpret_never_throws "@@garbage@@" "p" "m" (.failed "boom" [])
  have h2 := h.2 "boom" [] rfl
  exact ⟨h2.1, h2.2.1, h2.2.2, h.1⟩

/-- C2 counterexample: a diff produced by the normalizer holds one `.log`
file; filtering with `exclude = ["*.log"]` drops it, yet the filtered
diff's stats still claim one changed file, so
`stats.files_changed ≠ len(files)` after `FileFilter.filter`. -/
theorem c2_stats_counterexample :
    (filter_files
        (process_diffs [{ b_path := some "a.log", patchData := .text "+x" }]
          none "main")
        { include_patterns := ["*"], exclude_patterns := ["*.log"],
          max_files_per_review := 50 }).1.stats.files_changed ≠
      (filter_files
        (process_diffs [{ b_path := some "a.log", patchData := .text "+x" }]
          none "main")
        { include_patterns := ["*"], exclude_patterns := ["*.log"],
          max_files_per_review := 50 }).1.files.length := by
  simp [filter_files, filter_files_loop, process_diffs, process_diffs_go,
        process_single_diff, pickPath, pyFnmatch, globMatch, parseCls,
        scanToClose, countPatchLine, pyStartsWith, pySplitStr, pySplit]

/-- C2 amended: the stats equalities hold for every diff produced by
`_process_diffs` (normalization); `_filter_files` returns the *input*
diff's stats unchanged, so after filtering they hold only when filtering
dropped no file. -/
theorem c2_stats_invariant_amended :
    (∀ (diffs : List RawDiff) (msg : Option String) (branch : String),
        (process_diffs diffs msg branch).stats.files_changed =
            (process_diffs diffs msg branch).files.length ∧
          (process_diffs diffs msg branch).stats.insertions =
            ((process_diffs diffs msg branch).files.map
              FileChange.additions).sum ∧
          (process_diffs diffs msg branch).stats.deletions =
            ((process_diffs diffs msg branch).files.map
              FileChange.deletions).sum) ∧
      ∀ (gd : GitDiff) (cfg : FilterConfig),
        (filter_files gd cfg).1.stats = gd.stats := by
  constructor
  · intro diffs msg branch
    rw [process_diffs_files, process_diffs_stats]
    exact ⟨rfl, rfl, rfl⟩
  · intro gd cfg
    exact (filter_files_spec gd cfg).2.2

/-- C7: the working-tree scope concatenates the staged-vs-HEAD records with
the unstaged-vs-index records, without deduplication: the path multiset is
additive over the two contributions, and a path contributed by both sides
occurs at least twice. -/
theorem c7_working_diff_union (staged unstaged : List RawDiff)
    (branch : String) :
    (get_working_diff staged unstaged branch).files =
        staged.filterMap process_single_diff ++
          unstaged.filterMap process_single_diff ∧
      ∀ p : String,
        ((get_working_diff staged unstaged branch).files.map
              FileChange.path).count p =
            ((staged.filterMap process_single_diff).map
              FileChange.path).count p +
              ((unstaged.filterMap process_single_diff).map
                FileChange.path).count p ∧
          (p ∈ (staged.filterMap process_single_diff).map FileChange.path →
           p ∈ (unstaged.filterMap process_single_diff).map FileChange.path →
           2 ≤ ((get_working_diff staged unstaged branch).files.map
                  FileChange.path).count p) := by
  have hfiles : (get_working_diff staged unstaged branch).files =
      staged.filterMap process_single_diff ++
        unstaged.filterMap process_single_diff := by
    unfold get_working_diff
    rw [process_diffs_files, List.filterMap_append]
  refine ⟨hfiles, ?_⟩
  intro p
  have hcount : ((get_working_diff staged unstaged branch).files.map
      FileChange.path).count p =
        ((staged.filterMap process_single_diff).map FileChange.path).count p +
          ((unstaged.filterMap process_single_diff).map
            FileChange.path).count p := by
    rw [hfiles, List.map_append, List.count_append]
  refine ⟨hcount, ?_⟩
  intro h1 h2
  rw [hcount]
  have hc1 : 0 < ((staged.filterMap process_single_diff).map
      FileChange.path).count p := List.count_pos_iff.mpr h1
  have hc2 : 0 < ((unstaged.filterMap process_single_diff).map
      FileChange.path).count p := List.count_pos_iff.mpr h2
  omega

/-- C7 witness: the same path staged and unstaged appears twice. -/
theorem c7_working_diff_union_witness :
    (get_working_diff [{ b_path := some "a.py" }] [{ b_path := some "a.py" }]
          "main").files.map FileChange.path = ["a.py", "a.py"] ∧
      2 ≤ ((get_working_diff [{ b_path := some "a.py" }]
          [{ b_path := some "a.py" }] "main").files.map
            FileChange.path).count "a.py" := by
  have h := c7_working_diff_union [{ b_path := some "a.py" }]
    [{ b_path := some "a.py" }] "main"
  refine ⟨by rw [h.1]; decide, (h.2 "a.py").2 (by decide) (by decide)⟩

/-- C8 counterexample: a `ReviewResult` carrying `raw_response` does not
survive the serialize/re-parse round trip, because `_serialize_result`
emits no `raw_response` key. -/
theorem c8_roundtrip_counterexample :
    deserialize_result
        (serialize_result
          { provider := "p", model := "m", raw_response := some "RAW" }) ≠
      some { provider := "p", model := "m", raw_response := some "RAW" } := by
  decide

/-- C8 amended: serializing and re-parsing reconstructs the data model
field-for-field except `raw_response`, which is dropped by the serializer
and comes back as its `None` default. -/
theorem c8_roundtrip_amended (r : ReviewResult) :
    deserialize_result (serialize_result r) =
      some { r with raw_response := none } :=
  deserialize_serialize r

/-- C9 counterexample: with two identically-titled headings where the later
section accumulates no line, the mapping keeps the *earlier* section's
content — it is not discarded. -/
theorem c9_duplicate_heading_counterexample :
    split_into_sections "# T\nhello\n# T" = [("T", "hello")] := by
  decide

/-- C9 amended: when the later identically-titled heading accumulates at
least one line, the dict assignment overwrites, so only the last
occurrence's content survives; the earlier content is silently discarded.
(The counterexample shows the buffer-empty case, where the earlier content
survives because an empty buffer is never flushed.) -/
theorem c9_duplicate_heading_overwrite (h1 c1 h2 c2 t : String)
    (hh1 : headerMatch h1 = some t) (hh2 : headerMatch h2 = some t)
    (hc1 : headerMatch c1 = none) (hc2 : headerMatch c2 = none) :
    split_sections_go [h1, c1, h2, c2] "general" [] [] = [(t, c2)] := by
  unfold split_sections_go
  rw [hh1]
  unfold split_sections_go
  rw [hc1]
  unfold split_sections_go
  rw [hh2]
  unfold split_sections_go
  rw [hc2]
  unfold split_sections_go
  simp [updateAList, joinLines, String.intercalate]
  rfl

/-- C9 witness: concrete duplicate headings with the overwrite behavior. -/
theorem c9_duplicate_heading_overwrite_witness :
    split_sections_go ["# T", "hello", "# T", "world"] "general" [] [] =
      [("T", "world")] :=
  c9_duplicate_heading_overwrite "# T" "hello" "# T" "world" "T"
    (by decide) (by decide) (by decide) (by decide)

/-- C10: a raw record whose processing fails — in particular one with
neither a post- nor a pre-change path — is omitted from the produced files
(`files` is exactly the `filterMap` over successfully-processed records),
and the aggregate stats are computed from the retained records only. -/
theorem c10_failed_record_omitted :
    (∀ r : RawDiff, r.b_path = none → r.a_path = none →
        process_single_diff r = none) ∧
      ∀ (diffs : List RawDiff) (msg : Option String) (branch : String),
        (process_diffs diffs msg branch).files =
            diffs.filterMap process_single_diff ∧
          (process_diffs diffs msg branch).stats.files_changed =
            (diffs.filterMap process_single_diff).length ∧
          (process_diffs diffs msg branch).stats.insertions =
            ((diffs.filterMap process_single_diff).map
              FileChange.additions).sum ∧
          (process_diffs diffs msg branch).stats.deletions =
            ((diffs.filterMap process_single_diff).map
              FileChange.deletions).sum := by
  constructor
  · intro r hb ha
    unfold process_single_diff
    rw [hb, ha]
    rfl
  · intro diffs msg branch
    refine ⟨process_diffs_files diffs msg branch, ?_, ?_, ?_⟩ <;>
      rw [process_diffs_stats]

/-- C10 witness: the pathless record contributes nothing. -/
theorem c10_failed_record_omitted_witness :
    process_single_diff
        { a_path := none, b_path := none,
          patchData := .text "+line" } = none ∧
      (process_diffs
          [{ a_path := none, b_path := none, patchData := .text "+line" }]
          none "main").files = [] ∧
      (process_diffs
          [{ a_path := none, b_path := none, patchData := .text "+line" }]
          none "main").stats.insertions = 0 := by
  have h := c10_failed_record_omitted
  have h1 := h.1 { a_path := none, b_path := none, patchData := .text "+line" }
    rfl rfl
  have h2 := h.2
    [{ a_path := none, b_path := none, patchData := .text "+line" }] none "main"
  refine ⟨h1, ?_, ?_⟩
  · rw [h2.1]
    simp [h1]
  · rw [h2.2.2.1]
    simp [h1]

/-- C3: a line is a severity marker iff it carries one of the three
indicators (glyph literal or keyword); the indicators are checked in the
fixed order Critical, Major, Minor, first match winning; and the whole
issue-extraction state machine equals the specification's marker-delimited
block reading — in particular a section without markers yields no issues. -/
theorem c3_issue_state_machine :
    (∀ line : String, (severityOf line).isSome = spec_is_marker line) ∧
      (∀ line : String, specContainsCritical line = true →
        severityOf line = some .critical) ∧
      (∀ line : String, specContainsCritical line = false →
        specContainsMajor line = true → severityOf line = some .major) ∧
      (∀ line : String, specContainsCritical line = false →
        specContainsMajor line = false → specContainsMinor line = true →
        severityOf line = some .minor) ∧
      (∀ content : String, parse_issues content = spec_parse_issues content) ∧
      ∀ content : String,
        (∀ l ∈ (pySplitStr '\n' content).map pyStrip,
          spec_is_marker l = false) →
        parse_issues content = [] := by
  refine ⟨severityOf_isSome_eq, ?_, ?_, ?_, parse_issues_eq_spec, ?_⟩
  · intro line h
    unfold specContainsCritical at h
    unfold severityOf
    simp only [Bool.or_eq_true] at h
    rcases h with h | h <;> simp [h]
  · intro line h1 h2
    unfold specContainsCritical at h1
    unfold specContainsMajor at h2
    unfold severityOf
    simp only [Bool.or_eq_false_iff] at h1
    simp only [Bool.or_eq_true] at h2
    rcases h2 with h | h <;> simp [h, h1.1, h1.2]
  · intro line h1 h2 h3
    unfold specContainsCritical at h1
    unfold specContainsMajor at h2
    unfold specContainsMinor at h3
    unfold severityOf
    simp only [Bool.or_eq_false_iff] at h1 h2
    simp only [Bool.or_eq_true] at h3
    rcases h3 with h | h <;> simp [h, h1.1, h1.2, h2.1, h2.2]
  · intro content h
    rw [parse_issues_eq_spec]
    unfold spec_parse_issues
    rw [spec_blocks_no_marker h]
    rfl

/-- C3 witness: the characterization at concrete marker and non-marker
lines and a marker-free section. -/
theorem c3_issue_state_machine_witness :
    severityOf "this is CRITICAL and minor" = some .critical ∧
      severityOf "a major problem" = some .major ∧
      severityOf "minor nit" = some .minor ∧
      parse_issues "just prose\nno markers here" = [] := by
  have h := c3_issue_state_machine
  exact ⟨h.2.1 "this is CRITICAL and minor" (by decide),
         h.2.2.1 "a major problem" (by decide) (by decide),
         h.2.2.2.1 "minor nit" (by decide) (by decide) (by decide),
         h.2.2.2.2.2 "just prose\nno markers here" (by decide)⟩

/-- C4 counterexample: on the claim's exact input the interpreter yields
one issue, not two — the source's glyph literals are the mojibake strings
"ðŸ”´"/"ðŸŸ¢", so the line carrying a real 🔴 is not recognized as a
marker (and no open issue exists to absorb it or the following line). -/
theorem c4_example_counterexample :
    (parse_issues
        "🔴 Null check missing\nAlso crashes on empty input\n🟢 Minor style nit").length
      ≠ 2 := by
  simp [parse_issues, parse_issues_go, pySplitStr, pySplit, pyStrip,
        severityOf, containsSub, needleIn, pyLower, redGlyph, yellowGlyph,
        greenGlyph, clean_issue_text, cleanSevScan, tryMatchSev, sevWordAfter,
        dropStars2, dropColon1, glyphChars]

/-- C4 amended: that input yields exactly one issue, opened by the word
"minor" on the third line, with severity Minor and description
"🟢 style nit" — the severity keyword is stripped but the real emoji is
not (the glyph-stripping class holds only mojibake characters), and the
first two lines are dropped because no marker opened an issue. -/
theorem c4_example_amended :
    parse_issues
        "🔴 Null check missing\nAlso crashes on empty input\n🟢 Minor style nit" =
      [{ severity := .minor, type := "general",
         description := "🟢 style nit" }] := by
  simp [parse_issues, parse_issues_go, pySplitStr, pySplit, pyStrip,
        severityOf, containsSub, needleIn, pyLower, redGlyph, yellowGlyph,
        greenGlyph, clean_issue_text, cleanSevScan, tryMatchSev, sevWordAfter,
        dropStars2, dropColon1, glyphChars]

/-- C5: every extracted list item becomes the specification's suggestion —
id "suggestion-n" (1-indexed), title the text before the first `.` (else
the first 50 characters), description the full item, priority High on
urgent/critical/important with precedence over Low on
minor/optional/consider, else Medium; and the claim's concrete example. -/
theorem c5_suggestion_construction :
    (∀ content : String,
        parse_suggestions content =
          (extract_list_items content).enum.map
            (fun p => spec_suggestion (p.1 + 1) p.2)) ∧
      (∀ item : String,
          (["urgent", "critical", "important"].any
            (fun w => containsSub (pyLower item) w)) = true →
          spec_priority item = .high) ∧
      spec_title "Add input validation. This prevents crashes." =
        "Add input validation" ∧
      spec_priority "Add input validation. This prevents crashes." =
        .medium ∧
      parse_suggestions "- Add input validation. This prevents crashes." =
        [{ id := "suggestion-1", title := "Add input validation",
           description := "Add input validation. This prevents crashes.",
           priority := .medium }] := by
  refine ⟨?_, ?_, by decide, by decide, by decide⟩
  · intro content
    unfold parse_suggestions
    apply List.map_congr_left
    intro p _
    unfold spec_suggestion spec_priority priorityOf
    rw [titleOf_eq_spec]
  · intro item h
    unfold spec_priority
    rw [if_pos h]

/-- C5 witness: an item with both a High and a Low keyword gets High. -/
theorem c5_suggestion_construction_witness :
    spec_priority "urgent but optional" = .high ∧
      parse_suggestions "- urgent but optional" =
        [{ id := "suggestion-1", title := "urgent but optional",
           description := "urgent but optional", priority := .high }] := by
  have h := c5_suggestion_construction
  refine ⟨h.2.1 "urgent but optional" (by decide), ?_⟩
  rw [h.1 "- urgent but optional"]
  decide

/-- C6: filtering drops every file matching an exclude pattern, keeps a
file only when it matches an include pattern, truncates the kept list to
the first `max_files_per_review` entries (the warning fires exactly when
the kept list exceeded the cap), and the caller-level step fails with the
explicit "no files remaining" error exactly when the filtered set is
empty. -/
theorem c6_filter_semantics (gd : GitDiff) (cfg : FilterConfig) :
    (filter_files gd cfg).1.files =
        (spec_kept cfg gd.files).take cfg.max_files_per_review ∧
      ((filter_files gd cfg).2 = true ↔
        cfg.max_files_per_review < (spec_kept cfg gd.files).length) ∧
      (∀ f ∈ (filter_files gd cfg).1.files,
          (∀ pat ∈ cfg.exclude_patterns, pyFnmatch f.path pat = false) ∧
            ∃ pat ∈ cfg.include_patterns, pyFnmatch f.path pat = true) ∧
      (run_review_filter_step gd cfg =
          Except.error "No files to review after filtering" ↔
        (filter_files gd cfg).1.files = []) := by
  obtain ⟨h1, h2, h3⟩ := filter_files_spec gd cfg
  refine ⟨h1, by rw [h2]; simp, ?_, ?_⟩
  · intro f hf
    rw [h1] at hf
    have hf' : f ∈ spec_kept cfg gd.files := List.take_subset _ _ hf
    unfold spec_kept at hf'
    rw [List.mem_filter] at hf'
    obtain ⟨-, hcond⟩ := hf'
    simp only [Bool.and_eq_true, Bool.not_eq_true'] at hcond
    obtain ⟨hex, hin⟩ := hcond
    constructor
    · intro pat hpat
      rw [List.any_eq_false] at hex
      have := hex pat hpat
      simpa using this
    · exact List.any_eq_true.mp hin
  · unfold run_review_filter_step
    by_cases he : (filter_files gd cfg).1.files = []
    · simp [he]
    · simp only [List.isEmpty_iff]
      rw [if_neg he]
      simp [he]

/-- C6 witness: concrete exclusion, inclusion, and the empty-result
error. -/
theorem c6_filter_semantics_witness :
    (filter_files
          { files := [{ path := "a.py", status := .modified },
                      { path := "b.log", status := .modified }],
            stats := { files_changed := 2, insertions := 0, deletions := 0 } }
          { include_patterns := ["*.py"], exclude_patterns := ["*.log"],
            max_files_per_review := 50 }).1.files =
        [{ path := "a.py", status := .modified }] ∧
      (∃ pat ∈ ["*.py"], pyFnmatch "a.py" pat = true) ∧
      run_review_filter_step
          { files := [{ path := "b.log", status := .modified }],
            stats := { files_changed := 1, insertions := 0, deletions := 0 } }
          { include_patterns := ["*.py"], exclude_patterns := ["*.log"],
            max_files_per_review := 50 } =
        Except.error "No files to review after filtering" := by
  have hA := c6_filter_semantics
    { files := [{ path := "a.py", status := .modified },
                { path := "b.log", status := .modified }],
      stats := { files_changed := 2, insertions := 0, deletions := 0 } }
    { include_patterns := ["*.py"], exclude_patterns := ["*.log"],
      max_files_per_review := 50 }
  have hB := c6_filter_semantics
    { files := [{ path := "b.log", status := .modified }],
      stats := { files_changed := 1, insertions := 0, deletions := 0 } }
    { include_patterns := ["*.py"], exclude_patterns := ["*.log"],
      max_files_per_review := 50 }
  have hkeptA : (filter_files
      { files := [{ path := "a.py", status := .modified },
                  { path := "b.log", status := .modified }],
        stats := { files_changed := 2, insertions := 0, deletions := 0 } }
      { include_patterns := ["*.py"], exclude_patterns := ["*.log"],
        max_files_per_review := 50 }).1.files =
      [{ path := "a.py", status := .modified }] := by
    rw [hA.1]
    simp [spec_kept, pyFnmatch, globMatch, parseCls, scanToClose]
  have hkeptB : (filter_files
      { files := [{ path := "b.log", status := .modified }],
        stats := { files_changed := 1, insertions := 0, deletions := 0 } }
      { include_patterns := ["*.py"], exclude_patterns := ["*.log"],
        max_files_per_review := 50 }).1.files = [] := by
    rw [hB.1]
    simp [spec_kept, pyFnmatch, globMatch, parseCls, scanToClose]
  refine ⟨hkeptA, ?_, hB.2.2.2.mpr hkeptB⟩
  have hm := hA.2.2.1 { path := "a.py", status := .modified }
    (by rw [hkeptA]; simp)
  exact hm.2

end ReviewBot
